import Mathlib

/-!
Shallow embedding of the goletan/di service registry
(internal/container/container.go together with the Lifetime enum of
internal/container/lifetime.go).

Go-side opaque entities are represented by identifiers:
a constructor `func() interface{}` is a `Nat` identifier whose invocation
allocates a fresh `Value` (allocation identity models Go pointer identity)
and appends a `ctorRun` event to the trace; an init or destroy hook
`func()` is a `Nat` identifier whose invocation appends a hook event.
Go maps are association lists with unique keys; `mapInsert` replaces an
existing binding in place and `mapErase` removes the binding, matching
`m[k] = v` and `delete(m, k)`.  The `zap` logging calls are side channels
with no effect on registry state and are not modelled.
-/

namespace DI

/-- Lifetime of a registered service (internal/container/lifetime.go). -/
inductive Lifetime where
  | Singleton
  | Transient
deriving DecidableEq

/-- The `String()` method of `Lifetime` (lifetime.go). -/
def Lifetime.string : Lifetime → String
  | .Singleton => "Singleton"
  | .Transient => "Transient"

/-- Observable side effects of the registry: a constructor invocation, an
init-hook invocation, a destroy-hook invocation, and the removal of a cached
instance from the instance table (`delete(c.instances, name)`). -/
inductive Event where
  | ctorRun (k : Nat)
  | initHookRun (h : Nat)
  | destroyHookRun (h : Nat)
  | dropInstance (name : String)
deriving DecidableEq

/-- A constructed service value.  `ctorId` records which constructor produced
it and `allocId` is the unique allocation stamp giving Go pointer identity. -/
structure Value where
  ctorId : Nat
  allocId : Nat
deriving DecidableEq

/-- The `serviceDefinition` struct of container.go: constructor, lifetime and
the two optional hooks. -/
structure ServiceDefinition where
  constructor : Nat
  lifetime : Lifetime
  initHook : Option Nat
  destroyHook : Option Nat
deriving DecidableEq

/-- A `ServiceOption` configures a service definition; the package exports
exactly `WithInitHook` and `WithDestroyHook` (container.go). -/
inductive ServiceOption where
  | WithInitHook (h : Nat)
  | WithDestroyHook (h : Nat)
deriving DecidableEq

/-- Application of one `ServiceOption` to a definition (`opt(&serviceDef)`). -/
def applyOption (s : ServiceDefinition) : ServiceOption → ServiceDefinition
  | .WithInitHook h => { s with initHook := some h }
  | .WithDestroyHook h => { s with destroyHook := some h }

/-- Lookup in a Go map modelled as an association list (`m[k]`). -/
def mapLookup {α : Type} : List (String × α) → String → Option α
  | [], _ => none
  | (k, w) :: rest, name => if k = name then some w else mapLookup rest name

/-- Insertion into a Go map (`m[k] = v`): replaces the existing binding in
place, or appends a new one. -/
def mapInsert {α : Type} : List (String × α) → String → α → List (String × α)
  | [], name, v => [(name, v)]
  | (k, w) :: rest, name, v =>
      if k = name then (name, v) :: rest else (k, w) :: mapInsert rest name v

/-- Deletion from a Go map (`delete(m, k)`). -/
def mapErase {α : Type} : List (String × α) → String → List (String × α)
  | [], _ => []
  | (k, w) :: rest, name =>
      if k = name then mapErase rest name else (k, w) :: mapErase rest name

/-- The keys of a Go map; a well-formed map has no duplicate keys. -/
def keysOf {α : Type} : List (String × α) → List String
  | [] => []
  | (k, _) :: rest => k :: keysOf rest

/-- The `Container` struct of container.go: the descriptor map `services`,
the singleton-instance map `instances`, plus the allocation counter and the
event trace that record the effects of constructor and hook invocations.
The `sync.RWMutex` and the logger are not part of the sequential state. -/
structure Container where
  services : List (String × ServiceDefinition)
  instances : List (String × Value)
  nextAlloc : Nat
  trace : List Event
deriving DecidableEq

/-- `NewContainer` (container.go): both maps start empty. -/
def NewContainer : Container :=
  { services := [], instances := [], nextAlloc := 0, trace := [] }

/-- `Register` (container.go): builds a `serviceDefinition` from the
constructor and lifetime, applies the options in order, and stores it under
`name`, overwriting any prior descriptor.  Only the descriptor map changes. -/
def Register (c : Container) (name : String) (ctor : Nat) (lifetime : Lifetime)
    (opts : List ServiceOption) : Container :=
  let serviceDef : ServiceDefinition :=
    { constructor := ctor, lifetime := lifetime, initHook := none, destroyHook := none }
  let serviceDef := opts.foldl applyOption serviceDef
  { c with services := mapInsert c.services name serviceDef }

/-- The events emitted by running an optional init hook. -/
def hookEvents : Option Nat → List Event
  | none => []
  | some h => [Event.initHookRun h]

/-- Running an optional init hook (`if serviceDef.initHook != nil`). -/
def emitInit (c : Container) : Option Nat → Container
  | none => c
  | some h => { c with trace := c.trace ++ [Event.initHookRun h] }

/-- The body of `Resolve` after the descriptor has been read under the read
lock (container.go).  Singleton branch: under the write lock, return the
cached instance if present, otherwise run the init hook, run the constructor,
cache and return the fresh instance.  Transient branch: run the constructor
and then the init hook (in that source order) and return the fresh instance
without touching the instance table. -/
def resolveWithDef (c : Container) (name : String) (serviceDef : ServiceDefinition) :
    Except String Value × Container :=
  match serviceDef.lifetime with
  | .Singleton =>
    match mapLookup c.instances name with
    | some inst => (.ok inst, c)
    | none =>
      let c1 := emitInit c serviceDef.initHook
      let inst : Value := { ctorId := serviceDef.constructor, allocId := c1.nextAlloc }
      (.ok inst,
        { c1 with
            nextAlloc := c1.nextAlloc + 1
            trace := c1.trace ++ [Event.ctorRun serviceDef.constructor]
            instances := mapInsert c1.instances name inst })
  | .Transient =>
    let inst : Value := { ctorId := serviceDef.constructor, allocId := c.nextAlloc }
    let c1 : Container :=
      { c with
          nextAlloc := c.nextAlloc + 1
          trace := c.trace ++ [Event.ctorRun serviceDef.constructor] }
    (.ok inst, emitInit c1 serviceDef.initHook)

/-- `Resolve` (container.go): reads the descriptor under the read lock; a
missing descriptor yields the error `service <name> not found`; otherwise the
body `resolveWithDef` runs. -/
def Resolve (c : Container) (name : String) : Except String Value × Container :=
  match mapLookup c.services name with
  | none => (.error ("service " ++ name ++ " not found"), c)
  | some serviceDef => resolveWithDef c name serviceDef

/-- `MustResolve` (container.go): calls `Resolve`; on error it panics with
`failed to resolve service: <err>`.  A panic is the `Sum.inl` branch carrying
the panic message. -/
def MustResolve (c : Container) (name : String) : Sum String Value × Container :=
  match Resolve c name with
  | (.ok service, c1) => (.inr service, c1)
  | (.error e, c1) => (.inl ("failed to resolve service: " ++ e), c1)

/-- `Destroy` (container.go): with no descriptor under `name` it only logs a
warning and returns.  Otherwise, if a cached instance exists, it runs the
destroy hook (if any) and then deletes the instance; finally it deletes the
descriptor. -/
def Destroy (c : Container) (name : String) : Container :=
  match mapLookup c.services name with
  | none => c
  | some serviceDef =>
    let c1 :=
      match mapLookup c.instances name with
      | some _ =>
        let ca :=
          match serviceDef.destroyHook with
          | some h => { c with trace := c.trace ++ [Event.destroyHookRun h] }
          | none => c
        { ca with
            instances := mapErase ca.instances name
            trace := ca.trace ++ [Event.dropInstance name] }
      | none => c
    { c1 with services := mapErase c1.services name }

/-- Number of constructor invocations recorded in a trace. -/
def ctorCount : List Event → Nat
  | [] => 0
  | Event.ctorRun _ :: es => ctorCount es + 1
  | _ :: es => ctorCount es

/-- One registry operation of the public API. -/
inductive Op where
  | register (name : String) (ctor : Nat) (lifetime : Lifetime) (opts : List ServiceOption)
  | resolve (name : String)
  | mustResolve (name : String)
  | destroy (name : String)
deriving DecidableEq

/-- The state transformation of one operation. -/
def applyOp (c : Container) : Op → Container
  | .register n k lt opts => Register c n k lt opts
  | .resolve n => (Resolve c n).2
  | .mustResolve n => (MustResolve c n).2
  | .destroy n => Destroy c n

/-- Running a sequence of operations. -/
def applyOps (c : Container) (ops : List Op) : Container :=
  ops.foldl applyOp c

/-- The Transient invariant of the spec: a name whose current descriptor is
Transient has no entry in the instance table. -/
def transientInv (c : Container) : Prop :=
  ∀ name serviceDef, mapLookup c.services name = some serviceDef →
    serviceDef.lifetime = Lifetime.Transient →
    mapLookup c.instances name = none

/-- Progress of one thread through `Resolve`: `ready` before the read-locked
descriptor lookup, `haveDef` between releasing the read lock and entering the
write-locked section, `finished` once `Resolve` has returned. -/
inductive ThreadPhase where
  | ready
  | haveDef (serviceDef : ServiceDefinition)
  | finished (result : Except String Value)

/-- One atomic step of a thread running `Resolve name`.  The read-locked
descriptor lookup and the write-locked body are the two lock-held critical
sections of container.go, so each is one atomic step. -/
def lockStep (name : String) (c : Container) : ThreadPhase → Container × ThreadPhase
  | .ready =>
    match mapLookup c.services name with
    | none => (c, .finished (.error ("service " ++ name ++ " not found")))
    | some serviceDef => (c, .haveDef serviceDef)
  | .haveDef serviceDef =>
    let r := resolveWithDef c name serviceDef
    (r.2, .finished r.1)
  | .finished r => (c, .finished r)

/-- Two threads concurrently resolving the same name: the shared container
and each thread's phase. -/
structure TwoThreads where
  c : Container
  t1 : ThreadPhase
  t2 : ThreadPhase

/-- One scheduling choice: `true` steps thread 1, `false` steps thread 2. -/
def schedStep (name : String) (s : TwoThreads) : Bool → TwoThreads
  | true =>
    let r := lockStep name s.c s.t1
    { c := r.1, t1 := r.2, t2 := s.t2 }
  | false =>
    let r := lockStep name s.c s.t2
    { c := r.1, t1 := s.t1, t2 := r.2 }

/-- Running both threads under an arbitrary interleaving. -/
def run2 (name : String) (sched : List Bool) (s : TwoThreads) : TwoThreads :=
  sched.foldl (schedStep name) s

/-- A thread that has not yet entered the write-locked section's completion:
still to read the descriptor, or holding it. -/
def PreDone (serviceDef : ServiceDefinition) (t : ThreadPhase) : Prop :=
  t = .ready ∨ t = .haveDef serviceDef

/-- After the singleton has been constructed with value `v`, every thread is
either before its own critical section or has finished with `v`. -/
def PostDone (serviceDef : ServiceDefinition) (v : Value) (t : ThreadPhase) : Prop :=
  t = .ready ∨ t = .haveDef serviceDef ∨ t = .finished (.ok v)

/-- Inductive invariant for two threads racing to first-resolve the singleton
`name`: either nobody has constructed yet (no cached instance, constructor
count unchanged) or exactly one construction has happened and every finished
thread returned the constructed value. -/
def ConcInv (name : String) (serviceDef : ServiceDefinition) (n0 : Nat)
    (s : TwoThreads) : Prop :=
  mapLookup s.c.services name = some serviceDef ∧
  ((mapLookup s.c.instances name = none ∧ ctorCount s.c.trace = n0 ∧
      PreDone serviceDef s.t1 ∧ PreDone serviceDef s.t2) ∨
   (∃ v, mapLookup s.c.instances name = some v ∧ ctorCount s.c.trace = n0 + 1 ∧
      PostDone serviceDef v s.t1 ∧ PostDone serviceDef v s.t2))

/-- A concrete container holding one Transient registration with an init
hook, used to evaluate the theorems on a closed input. -/
def exampleTransient : Container :=
  Register NewContainer "svc" 3 Lifetime.Transient [ServiceOption.WithInitHook 9]

/-- A concrete container holding one Singleton registration that has already
been resolved once, so its instance is cached. -/
def exampleCached : Container :=
  (Resolve (Register NewContainer "svc" 3 Lifetime.Singleton []) "svc").2

/-- A concrete container holding one Singleton registration carrying both an
init hook and a destroy hook. -/
def exampleHooks : Container :=
  Register NewContainer "svc" 2 Lifetime.Singleton
    [ServiceOption.WithInitHook 10, ServiceOption.WithDestroyHook 11]

/-! Association-list map lemmas. -/

theorem mapLookup_insert_self {α : Type} (l : List (String × α)) (n : String) (v : α) :
    mapLookup (mapInsert l n v) n = some v := by
  induction l with
  | nil => simp [mapInsert, mapLookup]
  | cons p rest ih =>
    obtain ⟨k, w⟩ := p
    by_cases h : k = n
    · simp [mapInsert, h, mapLookup]
    · simp [mapInsert, h, mapLookup, ih]

theorem mapLookup_insert_ne {α : Type} (l : List (String × α)) (m n : String) (v : α)
    (hmn : m ≠ n) : mapLookup (mapInsert l n v) m = mapLookup l m := by
  induction l with
  | nil => simp [mapInsert, mapLookup, Ne.symm hmn]
  | cons p rest ih =>
    obtain ⟨k, w⟩ := p
    by_cases h : k = n
    · subst h
      simp [mapInsert, mapLookup, Ne.symm hmn]
    · simp [mapInsert, h, mapLookup, ih]

theorem mapLookup_erase_self {α : Type} (l : List (String × α)) (n : String) :
    mapLookup (mapErase l n) n = none := by
  induction l with
  | nil => simp [mapErase, mapLookup]
  | cons p rest ih =>
    obtain ⟨k, w⟩ := p
    by_cases h : k = n
    · simp [mapErase, h, ih]
    · simp [mapErase, h, mapLookup, ih]

theorem mapLookup_erase_ne {α : Type} (l : List (String × α)) (m n : String)
    (hmn : m ≠ n) : mapLookup (mapErase l n) m = mapLookup l m := by
  induction l with
  | nil => simp [mapErase]
  | cons p rest ih =>
    obtain ⟨k, w⟩ := p
    by_cases h : k = n
    · subst h
      simp [mapErase, mapLookup, Ne.symm hmn, ih]
    · simp [mapErase, h, mapLookup, ih]

theorem mapErase_of_lookup_none {α : Type} (l : List (String × α)) (n : String)
    (h : mapLookup l n = none) : mapErase l n = l := by
  induction l with
  | nil => simp [mapErase]
  | cons p rest ih =>
    obtain ⟨k, w⟩ := p
    by_cases hk : k = n
    · simp [mapLookup, hk] at h
    · simp [mapLookup, hk] at h
      simp [mapErase, hk, ih h]

theorem mem_keysOf_insert {α : Type} (l : List (String × α)) (m n : String) (v : α)
    (h : m ∈ keysOf (mapInsert l n v)) : m = n ∨ m ∈ keysOf l := by
  induction l with
  | nil => simpa [mapInsert, keysOf] using h
  | cons p rest ih =>
    obtain ⟨k, w⟩ := p
    by_cases hk : k = n
    · simp only [mapInsert, if_pos hk, keysOf, List.mem_cons] at h ⊢
      tauto
    · simp only [mapInsert, if_neg hk, keysOf, List.mem_cons] at h ⊢
      rcases h with h | h
      · tauto
      · rcases ih h with h1 | h1 <;> tauto

theorem mem_keysOf_erase {α : Type} (l : List (String × α)) (m n : String)
    (h : m ∈ keysOf (mapErase l n)) : m ∈ keysOf l := by
  induction l with
  | nil => simpa [mapErase] using h
  | cons p rest ih =>
    obtain ⟨k, w⟩ := p
    by_cases hk : k = n
    · simp only [mapErase, if_pos hk] at h
      simp only [keysOf, List.mem_cons]
      exact Or.inr (ih h)
    · simp only [mapErase, if_neg hk, keysOf, List.mem_cons] at h ⊢
      rcases h with h | h
      · tauto
      · exact Or.inr (ih h)

theorem nodup_keysOf_insert {α : Type} (l : List (String × α)) (n : String) (v : α)
    (h : (keysOf l).Nodup) : (keysOf (mapInsert l n v)).Nodup := by
  induction l with
  | nil => simp [mapInsert, keysOf]
  | cons p rest ih =>
    obtain ⟨k, w⟩ := p
    simp only [keysOf, List.nodup_cons] at h
    by_cases hk : k = n
    · subst hk
      simp only [mapInsert, if_pos rfl, keysOf, List.nodup_cons]
      exact h
    · simp only [mapInsert, if_neg hk, keysOf, List.nodup_cons]
      refine ⟨fun hmem => ?_, ih h.2⟩
      rcases mem_keysOf_insert rest k n v hmem with h1 | h1
      · exact hk h1
      · exact h.1 h1

theorem nodup_keysOf_erase {α : Type} (l : List (String × α)) (n : String)
    (h : (keysOf l).Nodup) : (keysOf (mapErase l n)).Nodup := by
  induction l with
  | nil => simp [mapErase, keysOf]
  | cons p rest ih =>
    obtain ⟨k, w⟩ := p
    simp only [keysOf, List.nodup_cons] at h
    by_cases hk : k = n
    · simp only [mapErase, if_pos hk]
      exact ih h.2
    · simp only [mapErase, if_neg hk, keysOf, List.nodup_cons]
      exact ⟨fun hmem => h.1 (mem_keysOf_erase rest k n hmem), ih h.2⟩

/-! Lemmas about the registry operations. -/

theorem emitInit_services (c : Container) (o : Option Nat) :
    (emitInit c o).services = c.services := by
  cases o <;> rfl

theorem emitInit_instances (c : Container) (o : Option Nat) :
    (emitInit c o).instances = c.instances := by
  cases o <;> rfl

theorem emitInit_nextAlloc (c : Container) (o : Option Nat) :
    (emitInit c o).nextAlloc = c.nextAlloc := by
  cases o <;> rfl

theorem emitInit_trace (c : Container) (o : Option Nat) :
    (emitInit c o).trace = c.trace ++ hookEvents o := by
  cases o <;> simp [emitInit, hookEvents]

theorem ctorCount_append (a b : List Event) :
    ctorCount (a ++ b) = ctorCount a + ctorCount b := by
  induction a with
  | nil => simp [ctorCount]
  | cons e rest ih =>
    cases e <;> simp [ctorCount, ih]
    omega

theorem ctorCount_hookEvents (o : Option Nat) : ctorCount (hookEvents o) = 0 := by
  cases o <;> rfl

theorem resolve_unregistered (c : Container) (name : String)
    (h : mapLookup c.services name = none) :
    Resolve c name = (.error ("service " ++ name ++ " not found"), c) := by
  simp [Resolve, h]

theorem resolve_cached (c : Container) (name : String) (serviceDef : ServiceDefinition)
    (v : Value)
    (hsd : mapLookup c.services name = some serviceDef)
    (hlt : serviceDef.lifetime = Lifetime.Singleton)
    (hv : mapLookup c.instances name = some v) :
    Resolve c name = (.ok v, c) := by
  simp [Resolve, hsd, resolveWithDef, hlt, hv]

theorem resolve_first_singleton (c : Container) (name : String)
    (serviceDef : ServiceDefinition)
    (hsd : mapLookup c.services name = some serviceDef)
    (hlt : serviceDef.lifetime = Lifetime.Singleton)
    (hnone : mapLookup c.instances name = none) :
    Resolve c name =
      (.ok { ctorId := serviceDef.constructor, allocId := c.nextAlloc },
       { services := c.services
         instances := mapInsert c.instances name
           { ctorId := serviceDef.constructor, allocId := c.nextAlloc }
         nextAlloc := c.nextAlloc + 1
         trace := c.trace ++ hookEvents serviceDef.initHook
           ++ [Event.ctorRun serviceDef.constructor] }) := by
  cases ho : serviceDef.initHook <;>
    simp [Resolve, hsd, resolveWithDef, hlt, hnone, emitInit, ho, hookEvents]

theorem resolve_transient (c : Container) (name : String)
    (serviceDef : ServiceDefinition)
    (hsd : mapLookup c.services name = some serviceDef)
    (hlt : serviceDef.lifetime = Lifetime.Transient) :
    Resolve c name =
      (.ok { ctorId := serviceDef.constructor, allocId := c.nextAlloc },
       { services := c.services
         instances := c.instances
         nextAlloc := c.nextAlloc + 1
         trace := c.trace ++ [Event.ctorRun serviceDef.constructor]
           ++ hookEvents serviceDef.initHook }) := by
  cases ho : serviceDef.initHook <;>
    simp [Resolve, hsd, resolveWithDef, hlt, emitInit, ho, hookEvents]

theorem destroy_unregistered_eq (c : Container) (name : String)
    (h : mapLookup c.services name = none) : Destroy c name = c := by
  simp [Destroy, h]

theorem destroy_services_lookup_self (c : Container) (name : String) :
    mapLookup (Destroy c name).services name = none := by
  unfold Destroy
  cases h : mapLookup c.services name with
  | none => simpa using h
  | some serviceDef =>
    cases hi : mapLookup c.instances name <;> cases hd : serviceDef.destroyHook <;>
      simp [mapLookup_erase_self]

theorem destroy_instances_lookup_self (c : Container) (name : String)
    (serviceDef : ServiceDefinition)
    (hsd : mapLookup c.services name = some serviceDef) :
    mapLookup (Destroy c name).instances name = none := by
  unfold Destroy
  rw [hsd]
  cases hi : mapLookup c.instances name with
  | none => simpa using hi
  | some v => cases hd : serviceDef.destroyHook <;> simp [mapLookup_erase_self]

theorem destroy_instances_lookup_ne (c : Container) (m name : String) (h : m ≠ name) :
    mapLookup (Destroy c name).instances m = mapLookup c.instances m := by
  unfold Destroy
  cases hs : mapLookup c.services name with
  | none => rfl
  | some serviceDef =>
    cases hi : mapLookup c.instances name <;> cases hd : serviceDef.destroyHook <;>
      simp [hi, hd, mapLookup_erase_ne _ _ _ h]

theorem destroy_cached_hook (c : Container) (name : String)
    (serviceDef : ServiceDefinition) (h : Nat) (v : Value)
    (hsd : mapLookup c.services name = some serviceDef)
    (hdh : serviceDef.destroyHook = some h)
    (hv : mapLookup c.instances name = some v) :
    Destroy c name =
      { services := mapErase c.services name
        instances := mapErase c.instances name
        nextAlloc := c.nextAlloc
        trace := c.trace ++ [Event.destroyHookRun h, Event.dropInstance name] } := by
  simp [Destroy, hsd, hv, hdh]

theorem register_instances (c : Container) (name : String) (k : Nat) (lt : Lifetime)
    (opts : List ServiceOption) : (Register c name k lt opts).instances = c.instances := rfl

theorem register_trace (c : Container) (name : String) (k : Nat) (lt : Lifetime)
    (opts : List ServiceOption) : (Register c name k lt opts).trace = c.trace := rfl

theorem register_services_lookup_self (c : Container) (name : String) (k : Nat)
    (lt : Lifetime) (opts : List ServiceOption) :
    mapLookup (Register c name k lt opts).services name =
      some (opts.foldl applyOption
        { constructor := k, lifetime := lt, initHook := none, destroyHook := none }) := by
  simp [Register, mapLookup_insert_self]

theorem register_services_lookup_ne (c : Container) (m name : String) (k : Nat)
    (lt : Lifetime) (opts : List ServiceOption) (h : m ≠ name) :
    mapLookup (Register c name k lt opts).services m = mapLookup c.services m := by
  simp [Register, mapLookup_insert_ne _ _ _ _ h]

theorem foldl_applyOption_lifetime (opts : List ServiceOption) (s : ServiceDefinition) :
    (opts.foldl applyOption s).lifetime = s.lifetime := by
  induction opts generalizing s with
  | nil => rfl
  | cons o rest ih => cases o <;> simp [List.foldl, applyOption, ih]

theorem foldl_applyOption_ctor (opts : List ServiceOption) (s : ServiceDefinition) :
    (opts.foldl applyOption s).constructor = s.constructor := by
  induction opts generalizing s with
  | nil => rfl
  | cons o rest ih => cases o <;> simp [List.foldl, applyOption, ih]

theorem mustResolve_snd (c : Container) (name : String) :
    (MustResolve c name).2 = (Resolve c name).2 := by
  unfold MustResolve
  rcases h : Resolve c name with ⟨r, c1⟩
  cases r <;> simp

theorem resolve_keeps_instance (c : Container) (m name : String) (v : Value)
    (hv : mapLookup c.instances name = some v) :
    mapLookup (Resolve c m).2.instances name = some v := by
  unfold Resolve
  cases hs : mapLookup c.services m with
  | none => simpa using hv
  | some serviceDef =>
    unfold resolveWithDef
    cases hlt : serviceDef.lifetime with
    | Transient =>
      simpa [hlt, emitInit_instances] using hv
    | Singleton =>
      cases hi : mapLookup c.instances m with
      | some inst => simpa [hlt, hi] using hv
      | none =>
        have hmn : m ≠ name := by
          intro hEq
          rw [hEq, hv] at hi
          exact Option.noConfusion hi
        simp only [hlt, hi]
        rw [mapLookup_insert_ne _ _ _ _ (Ne.symm hmn), emitInit_instances]
        exact hv

theorem resolveWithDef_cached (c : Container) (name : String)
    (serviceDef : ServiceDefinition) (v : Value)
    (hlt : serviceDef.lifetime = Lifetime.Singleton)
    (hv : mapLookup c.instances name = some v) :
    resolveWithDef c name serviceDef = (.ok v, c) := by
  simp [resolveWithDef, hlt, hv]

theorem resolveWithDef_first_singleton (c : Container) (name : String)
    (serviceDef : ServiceDefinition)
    (hlt : serviceDef.lifetime = Lifetime.Singleton)
    (hnone : mapLookup c.instances name = none) :
    resolveWithDef c name serviceDef =
      (.ok { ctorId := serviceDef.constructor, allocId := c.nextAlloc },
       { services := c.services
         instances := mapInsert c.instances name
           { ctorId := serviceDef.constructor, allocId := c.nextAlloc }
         nextAlloc := c.nextAlloc + 1
         trace := c.trace ++ hookEvents serviceDef.initHook
           ++ [Event.ctorRun serviceDef.constructor] }) := by
  cases ho : serviceDef.initHook <;>
    simp [resolveWithDef, hlt, hnone, emitInit, ho, hookEvents]

theorem resolve_services (c : Container) (n : String) :
    (Resolve c n).2.services = c.services := by
  unfold Resolve
  cases hs : mapLookup c.services n with
  | none => rfl
  | some serviceDef =>
    unfold resolveWithDef
    cases hlt : serviceDef.lifetime with
    | Singleton =>
      cases hi : mapLookup c.instances n <;> simp [hlt, hi, emitInit_services]
    | Transient => simp [hlt, emitInit_services]

theorem resolve_nodup_instances (c : Container) (n : String)
    (h : (keysOf c.instances).Nodup) : (keysOf (Resolve c n).2.instances).Nodup := by
  unfold Resolve
  cases hs : mapLookup c.services n with
  | none => simpa using h
  | some serviceDef =>
    unfold resolveWithDef
    cases hlt : serviceDef.lifetime with
    | Transient => simpa [hlt, emitInit_instances] using h
    | Singleton =>
      cases hi : mapLookup c.instances n with
      | some inst => simpa [hlt, hi] using h
      | none =>
        simp only [hlt, hi]
        rw [emitInit_instances]
        exact nodup_keysOf_insert c.instances n _ h

theorem applyOp_keeps_instance (c : Container) (name : String) (v : Value) (op : Op)
    (hv : mapLookup c.instances name = some v) (hop : op ≠ Op.destroy name) :
    mapLookup (applyOp c op).instances name = some v := by
  cases op with
  | register n k lt opts => simpa [applyOp, register_instances] using hv
  | resolve n =>
    simp only [applyOp]
    exact resolve_keeps_instance c n name v hv
  | mustResolve n =>
    simp only [applyOp]
    rw [mustResolve_snd]
    exact resolve_keeps_instance c n name v hv
  | destroy n =>
    have hnn : name ≠ n := by
      rintro rfl
      exact hop rfl
    simp only [applyOp]
    rw [destroy_instances_lookup_ne c name n hnn]
    exact hv

theorem applyOp_nodup_instances (c : Container) (op : Op)
    (h : (keysOf c.instances).Nodup) : (keysOf (applyOp c op).instances).Nodup := by
  cases op with
  | register n k lt opts => simpa [applyOp, register_instances] using h
  | resolve n =>
    simp only [applyOp]
    exact resolve_nodup_instances c n h
  | mustResolve n =>
    simp only [applyOp]
    rw [mustResolve_snd]
    exact resolve_nodup_instances c n h
  | destroy n =>
    simp only [applyOp]
    unfold Destroy
    cases hs : mapLookup c.services n with
    | none => simpa using h
    | some serviceDef =>
      cases hi : mapLookup c.instances n with
      | none => simpa [hi] using h
      | some v =>
        cases hd : serviceDef.destroyHook <;> simp [hi, hd] <;>
          exact nodup_keysOf_erase c.instances n h

theorem applyOps_cons (c : Container) (op : Op) (rest : List Op) :
    applyOps c (op :: rest) = applyOps (applyOp c op) rest := rfl

theorem applyOps_keeps_instance (ops : List Op) (c : Container) (name : String) (v : Value)
    (hv : mapLookup c.instances name = some v)
    (hops : ∀ op ∈ ops, op ≠ Op.destroy name) :
    mapLookup (applyOps c ops).instances name = some v := by
  induction ops generalizing c with
  | nil => exact hv
  | cons op rest ih =>
    rw [applyOps_cons]
    exact ih (applyOp c op)
      (applyOp_keeps_instance c name v op hv (hops op (List.mem_cons_self op rest)))
      (fun o ho => hops o (List.mem_cons_of_mem op ho))

theorem applyOps_nodup_instances (ops : List Op) (c : Container)
    (h : (keysOf c.instances).Nodup) : (keysOf (applyOps c ops).instances).Nodup := by
  induction ops generalizing c with
  | nil => exact h
  | cons op rest ih =>
    rw [applyOps_cons]
    exact ih (applyOp c op) (applyOp_nodup_instances c op h)

theorem destroy_services_lookup_ne (c : Container) (m n : String) (h : m ≠ n) :
    mapLookup (Destroy c n).services m = mapLookup c.services m := by
  unfold Destroy
  cases hs : mapLookup c.services n with
  | none => rfl
  | some serviceDef =>
    cases hi : mapLookup c.instances n <;> cases hd : serviceDef.destroyHook <;>
      simp [hi, hd, mapLookup_erase_ne _ _ _ h]

theorem resolve_keeps_transientInv (c : Container) (n : String) (htr : transientInv c) :
    transientInv (Resolve c n).2 := by
  intro m serviceDef hm hlt
  rw [resolve_services] at hm
  have hmnone := htr m serviceDef hm hlt
  unfold Resolve
  cases hs : mapLookup c.services n with
  | none => simpa using hmnone
  | some sdn =>
    unfold resolveWithDef
    cases hlt2 : sdn.lifetime with
    | Transient => simpa [hlt2, emitInit_instances] using hmnone
    | Singleton =>
      cases hi : mapLookup c.instances n with
      | some inst => simpa [hlt2, hi] using hmnone
      | none =>
        have hmn : m ≠ n := by
          rintro rfl
          rw [hm] at hs
          injection hs with hh
          rw [← hh] at hlt2
          rw [hlt] at hlt2
          exact Lifetime.noConfusion hlt2
        simp only [hlt2, hi]
        rw [mapLookup_insert_ne _ _ _ _ hmn, emitInit_instances]
        exact hmnone

theorem destroy_keeps_transientInv (c : Container) (n : String) (htr : transientInv c) :
    transientInv (Destroy c n) := by
  intro m serviceDef hm hlt
  by_cases hmn : m = n
  · subst hmn
    rw [destroy_services_lookup_self] at hm
    exact Option.noConfusion hm
  · rw [destroy_services_lookup_ne c m n hmn] at hm
    rw [destroy_instances_lookup_ne c m n hmn]
    exact htr m serviceDef hm hlt

theorem register_keeps_transientInv (c : Container) (n : String) (k : Nat) (lt : Lifetime)
    (opts : List ServiceOption) (htr : transientInv c)
    (hc : lt = Lifetime.Transient → mapLookup c.instances n = none) :
    transientInv (Register c n k lt opts) := by
  intro m serviceDef hm hlt
  rw [register_instances]
  by_cases hmn : m = n
  · subst hmn
    rw [register_services_lookup_self] at hm
    injection hm with hsd
    rw [← hsd] at hlt
    rw [foldl_applyOption_lifetime] at hlt
    exact hc hlt
  · rw [register_services_lookup_ne _ _ _ _ _ _ hmn] at hm
    exact htr m serviceDef hm hlt

theorem preDone_postDone (serviceDef : ServiceDefinition) (v : Value) (t : ThreadPhase)
    (h : PreDone serviceDef t) : PostDone serviceDef v t := by
  cases h with
  | inl h => exact Or.inl h
  | inr h => exact Or.inr (Or.inl h)

theorem lockStep_left (name : String) (serviceDef : ServiceDefinition) (n0 : Nat)
    (hlt : serviceDef.lifetime = Lifetime.Singleton)
    (c : Container) (t : ThreadPhase)
    (hsd : mapLookup c.services name = some serviceDef)
    (hnone : mapLookup c.instances name = none)
    (hcnt : ctorCount c.trace = n0)
    (ht : PreDone serviceDef t) :
    ((lockStep name c t).1 = c ∧ PreDone serviceDef (lockStep name c t).2) ∨
    (∃ v, mapLookup (lockStep name c t).1.services name = some serviceDef ∧
       mapLookup (lockStep name c t).1.instances name = some v ∧
       ctorCount (lockStep name c t).1.trace = n0 + 1 ∧
       (lockStep name c t).2 = ThreadPhase.finished (.ok v)) := by
  cases ht with
  | inl ht =>
    subst ht
    left
    simp only [lockStep, hsd]
    exact ⟨trivial, Or.inr rfl⟩
  | inr ht =>
    subst ht
    right
    simp only [lockStep]
    rw [resolveWithDef_first_singleton c name serviceDef hlt hnone]
    refine ⟨{ ctorId := serviceDef.constructor, allocId := c.nextAlloc },
      by simpa using hsd, by simp [mapLookup_insert_self], ?_, rfl⟩
    simp [ctorCount_append, ctorCount_hookEvents, ctorCount, hcnt]

theorem lockStep_right (name : String) (serviceDef : ServiceDefinition) (v : Value)
    (hlt : serviceDef.lifetime = Lifetime.Singleton)
    (c : Container) (t : ThreadPhase)
    (hsd : mapLookup c.services name = some serviceDef)
    (hv : mapLookup c.instances name = some v)
    (ht : PostDone serviceDef v t) :
    (lockStep name c t).1 = c ∧ PostDone serviceDef v (lockStep name c t).2 := by
  rcases ht with ht | ht | ht
  · subst ht
    simp only [lockStep, hsd]
    exact ⟨trivial, Or.inr (Or.inl rfl)⟩
  · subst ht
    simp only [lockStep]
    rw [resolveWithDef_cached c name serviceDef v hlt hv]
    exact ⟨rfl, Or.inr (Or.inr rfl)⟩
  · subst ht
    exact ⟨rfl, Or.inr (Or.inr rfl)⟩

theorem concInv_step (name : String) (serviceDef : ServiceDefinition) (n0 : Nat)
    (hlt : serviceDef.lifetime = Lifetime.Singleton) (s : TwoThreads) (b : Bool)
    (h : ConcInv name serviceDef n0 s) :
    ConcInv name serviceDef n0 (schedStep name s b) := by
  obtain ⟨hsd, hcase⟩ := h
  cases b
  case false =>
    simp only [schedStep]
    rcases hcase with ⟨hnone, hcnt, ht1, ht2⟩ | ⟨v, hv, hcnt, ht1, ht2⟩
    · rcases lockStep_left name serviceDef n0 hlt s.c s.t2 hsd hnone hcnt ht2 with
        ⟨hceq, ht'⟩ | ⟨v, hsd', hv', hcnt', ht'⟩
      · rw [hceq]
        exact ⟨hsd, Or.inl ⟨hnone, hcnt, ht1, ht'⟩⟩
      · exact ⟨hsd', Or.inr ⟨v, hv', hcnt',
          preDone_postDone serviceDef v s.t1 ht1, Or.inr (Or.inr ht')⟩⟩
    · obtain ⟨hceq, ht'⟩ := lockStep_right name serviceDef v hlt s.c s.t2 hsd hv ht2
      rw [hceq]
      exact ⟨hsd, Or.inr ⟨v, hv, hcnt, ht1, ht'⟩⟩
  case true =>
    simp only [schedStep]
    rcases hcase with ⟨hnone, hcnt, ht1, ht2⟩ | ⟨v, hv, hcnt, ht1, ht2⟩
    · rcases lockStep_left name serviceDef n0 hlt s.c s.t1 hsd hnone hcnt ht1 with
        ⟨hceq, ht'⟩ | ⟨v, hsd', hv', hcnt', ht'⟩
      · rw [hceq]
        exact ⟨hsd, Or.inl ⟨hnone, hcnt, ht', ht2⟩⟩
      · exact ⟨hsd', Or.inr ⟨v, hv', hcnt', Or.inr (Or.inr ht'),
          preDone_postDone serviceDef v s.t2 ht2⟩⟩
    · obtain ⟨hceq, ht'⟩ := lockStep_right name serviceDef v hlt s.c s.t1 hsd hv ht1
      rw [hceq]
      exact ⟨hsd, Or.inr ⟨v, hv, hcnt, ht', ht2⟩⟩

theorem concInv_run2 (name : String) (serviceDef : ServiceDefinition) (n0 : Nat)
    (hlt : serviceDef.lifetime = Lifetime.Singleton) (sched : List Bool) (s : TwoThreads)
    (h : ConcInv name serviceDef n0 s) :
    ConcInv name serviceDef n0 (run2 name sched s) := by
  induction sched generalizing s with
  | nil => exact h
  | cons b rest ih =>
    exact ih (schedStep name s b) (concInv_step name serviceDef n0 hlt s b h)

/-! The claims. -/

/-- Claim C1: for a singleton registration, two concurrent first calls to
`Resolve(name)` return the same instance and the constructor runs exactly
once, for every interleaving of the lock-held critical sections in which
both threads finish. -/
theorem singleton_concurrent_first_resolution
    (c : Container) (name : String) (serviceDef : ServiceDefinition)
    (hsd : mapLookup c.services name = some serviceDef)
    (hlt : serviceDef.lifetime = Lifetime.Singleton)
    (hnone : mapLookup c.instances name = none)
    (sched : List Bool) (r1 r2 : Except String Value)
    (h1 : (run2 name sched { c := c, t1 := .ready, t2 := .ready }).t1 = .finished r1)
    (h2 : (run2 name sched { c := c, t1 := .ready, t2 := .ready }).t2 = .finished r2) :
    ∃ v, r1 = .ok v ∧ r2 = .ok v ∧
      ctorCount (run2 name sched { c := c, t1 := .ready, t2 := .ready }).c.trace
        = ctorCount c.trace + 1 := by
  have hinv := concInv_run2 name serviceDef (ctorCount c.trace) hlt sched
    { c := c, t1 := .ready, t2 := .ready }
    ⟨hsd, Or.inl ⟨hnone, rfl, Or.inl rfl, Or.inl rfl⟩⟩
  obtain ⟨hs, ⟨hnone2, hcnt2, ht1, ht2⟩ | ⟨v, hv, hcnt, ht1, ht2⟩⟩ := hinv
  · rcases ht1 with ht | ht <;> rw [h1] at ht <;> exact ThreadPhase.noConfusion ht
  · refine ⟨v, ?_, ?_, hcnt⟩
    · rcases ht1 with ht | ht | ht <;> rw [h1] at ht
      · exact ThreadPhase.noConfusion ht
      · exact ThreadPhase.noConfusion ht
      · injection ht with hh
    · rcases ht2 with ht | ht | ht <;> rw [h2] at ht
      · exact ThreadPhase.noConfusion ht
      · exact ThreadPhase.noConfusion ht
      · injection ht with hh

/-- Claim C1 witness: a concrete schedule in which both threads finish. -/
theorem singleton_concurrent_first_resolution_case :
    ∃ v, (Except.ok { ctorId := 7, allocId := 0 } : Except String Value) = .ok v ∧
      (Except.ok { ctorId := 7, allocId := 0 } : Except String Value) = .ok v ∧
      ctorCount (run2 "svc" [true, true, false, false]
          { c := Register NewContainer "svc" 7 Lifetime.Singleton [],
            t1 := .ready, t2 := .ready }).c.trace
        = ctorCount (Register NewContainer "svc" 7 Lifetime.Singleton []).trace + 1 :=
  singleton_concurrent_first_resolution
    (Register NewContainer "svc" 7 Lifetime.Singleton []) "svc"
    { constructor := 7, lifetime := .Singleton, initHook := none, destroyHook := none }
    (by decide) rfl rfl [true, true, false, false]
    (.ok { ctorId := 7, allocId := 0 }) (.ok { ctorId := 7, allocId := 0 }) rfl rfl

/-- Claim C2: a cached singleton instance survives any sequence of operations
that contains no `Destroy(name)`, the instance table keeps at most one entry
per name, and while the descriptor under `name` is Singleton every `Resolve`
returns the cached instance and leaves the container (hence the trace, hence
the constructor count) unchanged. -/
theorem singleton_cached_instance_stable
    (c : Container) (name : String) (v : Value) (ops : List Op)
    (hv : mapLookup c.instances name = some v)
    (hops : ∀ op ∈ ops, op ≠ Op.destroy name) :
    mapLookup (applyOps c ops).instances name = some v ∧
    ((keysOf c.instances).Nodup → (keysOf (applyOps c ops).instances).Nodup) ∧
    (∀ serviceDef, mapLookup (applyOps c ops).services name = some serviceDef →
       serviceDef.lifetime = Lifetime.Singleton →
       Resolve (applyOps c ops) name = (.ok v, applyOps c ops)) := by
  refine ⟨applyOps_keeps_instance ops c name v hv hops,
    fun hnd => applyOps_nodup_instances ops c hnd,
    fun serviceDef hsd hlt => ?_⟩
  exact resolve_cached _ name serviceDef v hsd hlt
    (applyOps_keeps_instance ops c name v hv hops)

/-- Claim C2 witness: a concrete cached instance surviving a resolve. -/
theorem singleton_cached_instance_stable_case :
    mapLookup (applyOps exampleCached [Op.resolve "svc"]).instances "svc"
      = some { ctorId := 3, allocId := 0 } :=
  (singleton_cached_instance_stable exampleCached "svc" { ctorId := 3, allocId := 0 }
    [Op.resolve "svc"] (by decide) (by decide)).1

/-- Claim C3: resolving a name with no registered descriptor fails with the
`not found` error and returns no instance, leaving the container unchanged. -/
theorem resolve_unregistered_not_found (c : Container) (name : String)
    (h : mapLookup c.services name = none) :
    Resolve c name = (.error ("service " ++ name ++ " not found"), c) :=
  resolve_unregistered c name h

/-- Claim C3 witness: resolving on the empty container. -/
theorem resolve_unregistered_not_found_case :
    Resolve NewContainer "ghost"
      = (.error ("service " ++ "ghost" ++ " not found"), NewContainer) :=
  resolve_unregistered_not_found NewContainer "ghost" rfl

/-- Claim C4 counterexample: `Register` does not preserve the Transient
invariant.  Starting from a container satisfying the invariant (a Singleton
descriptor with its cached instance), re-registering the same name with
Transient lifetime leaves the stale instance in the table under a Transient
descriptor. -/
theorem transient_inv_register_breaks :
    transientInv exampleCached ∧
    ¬ transientInv (Register exampleCached "svc" 1 Lifetime.Transient []) := by
  constructor
  · intro name serviceDef h hlt
    rw [show exampleCached.services
        = [("svc", { constructor := 3, lifetime := Lifetime.Singleton,
                     initHook := none, destroyHook := none })] from rfl] at h
    simp only [mapLookup] at h
    by_cases hn : "svc" = name
    · rw [if_pos hn] at h
      injection h with hh
      rw [← hh] at hlt
      exact absurd hlt (by decide)
    · rw [if_neg hn] at h
      exact Option.noConfusion h
  · intro h
    have hx := h "svc"
      { constructor := 1, lifetime := Lifetime.Transient,
        initHook := none, destroyHook := none } (by decide) rfl
    exact absurd hx (by decide)

/-- Claim C4 (amended): the Transient invariant is preserved by `Resolve` and
`Destroy`, and by `Register` unless it writes a Transient descriptor over a
name that still has a cached instance; moreover `Resolve` on a name with a
Transient descriptor always invokes the constructor. -/
theorem transient_inv_preservation (c : Container) (htr : transientInv c) :
    (∀ name, transientInv (Resolve c name).2) ∧
    (∀ name, transientInv (Destroy c name)) ∧
    (∀ name k lt opts,
       (lt = Lifetime.Transient → mapLookup c.instances name = none) →
       transientInv (Register c name k lt opts)) ∧
    (∀ name serviceDef, mapLookup c.services name = some serviceDef →
       serviceDef.lifetime = Lifetime.Transient →
       ctorCount (Resolve c name).2.trace = ctorCount c.trace + 1) := by
  refine ⟨fun name => resolve_keeps_transientInv c name htr,
    fun name => destroy_keeps_transientInv c name htr,
    fun name k lt opts hc => register_keeps_transientInv c name k lt opts htr hc,
    fun name serviceDef hsd hlt => ?_⟩
  rw [resolve_transient c name serviceDef hsd hlt]
  simp [ctorCount_append, ctorCount_hookEvents, ctorCount]

/-- Claim C4 witness: the preserved invariant evaluated after a concrete
transient resolution. -/
theorem transient_inv_preservation_case :
    transientInv (Resolve (Register NewContainer "a" 1 Lifetime.Transient []) "a").2 :=
  (transient_inv_preservation (Register NewContainer "a" 1 Lifetime.Transient [])
    (fun _ _ _ _ => rfl)).1 "a"

/-- Claim C5: every `Resolve` of a Transient registration runs the
constructor and the init hook, two sequential calls return instances that
are distinct by identity, and the instance table is untouched. -/
theorem transient_resolve_fresh
    (c : Container) (name : String) (serviceDef : ServiceDefinition)
    (hsd : mapLookup c.services name = some serviceDef)
    (hlt : serviceDef.lifetime = Lifetime.Transient) :
    ∃ v1 v2 : Value,
      (Resolve c name).1 = .ok v1 ∧
      (Resolve (Resolve c name).2 name).1 = .ok v2 ∧
      v1 ≠ v2 ∧
      (Resolve c name).2.instances = c.instances ∧
      (Resolve (Resolve c name).2 name).2.instances = c.instances ∧
      (Resolve c name).2.trace
        = c.trace ++ [Event.ctorRun serviceDef.constructor]
          ++ hookEvents serviceDef.initHook := by
  have h1 := resolve_transient c name serviceDef hsd hlt
  have hsd2 : mapLookup (Resolve c name).2.services name = some serviceDef := by
    rw [resolve_services]
    exact hsd
  have h2 := resolve_transient (Resolve c name).2 name serviceDef hsd2 hlt
  have hna : (Resolve c name).2.nextAlloc = c.nextAlloc + 1 := by rw [h1]
  refine ⟨{ ctorId := serviceDef.constructor, allocId := c.nextAlloc },
    { ctorId := serviceDef.constructor, allocId := (Resolve c name).2.nextAlloc },
    ?_, ?_, ?_, ?_, ?_, ?_⟩
  · rw [h1]
  · rw [h2]
  · rw [hna]
    intro hEq
    injection hEq with hc ha
    omega
  · rw [h1]
  · rw [h2, h1]
  · rw [h1]

/-- Claim C5 witness: two concrete transient resolutions. -/
theorem transient_resolve_fresh_case :
    ∃ v1 v2 : Value,
      (Resolve exampleTransient "svc").1 = .ok v1 ∧
      (Resolve (Resolve exampleTransient "svc").2 "svc").1 = .ok v2 ∧
      v1 ≠ v2 ∧
      (Resolve exampleTransient "svc").2.instances = exampleTransient.instances ∧
      (Resolve (Resolve exampleTransient "svc").2 "svc").2.instances
        = exampleTransient.instances ∧
      (Resolve exampleTransient "svc").2.trace
        = exampleTransient.trace ++ [Event.ctorRun 3] ++ hookEvents (some 9) :=
  transient_resolve_fresh exampleTransient "svc"
    { constructor := 3, lifetime := .Transient, initHook := some 9, destroyHook := none }
    (by decide) rfl

/-- Claim C6: for a singleton with both hooks, the init hook runs strictly
before the constructor on first resolution, and on `Destroy` the destroy
hook runs strictly before the cached instance is dropped from the table. -/
theorem singleton_hook_ordering
    (c : Container) (name : String) (serviceDef : ServiceDefinition) (hi hd : Nat)
    (hsd : mapLookup c.services name = some serviceDef)
    (hlt : serviceDef.lifetime = Lifetime.Singleton)
    (hih : serviceDef.initHook = some hi)
    (hdh : serviceDef.destroyHook = some hd)
    (hnone : mapLookup c.instances name = none) :
    (Resolve c name).2.trace
      = c.trace ++ [Event.initHookRun hi, Event.ctorRun serviceDef.constructor] ∧
    (Destroy (Resolve c name).2 name).trace
      = (Resolve c name).2.trace
        ++ [Event.destroyHookRun hd, Event.dropInstance name] ∧
    mapLookup (Destroy (Resolve c name).2 name).instances name = none := by
  have h1 := resolve_first_singleton c name serviceDef hsd hlt hnone
  have hsd2 : mapLookup (Resolve c name).2.services name = some serviceDef := by
    rw [resolve_services]
    exact hsd
  have hv2 : mapLookup (Resolve c name).2.instances name
      = some { ctorId := serviceDef.constructor, allocId := c.nextAlloc } := by
    rw [h1]
    exact mapLookup_insert_self c.instances name _
  have h2 := destroy_cached_hook (Resolve c name).2 name serviceDef hd
    { ctorId := serviceDef.constructor, allocId := c.nextAlloc } hsd2 hdh hv2
  refine ⟨?_, ?_, ?_⟩
  · rw [h1, hih]
    simp [hookEvents]
  · rw [h2]
  · rw [h2]
    exact mapLookup_erase_self _ name

/-- Claim C6 witness: both hook orderings evaluated on a concrete singleton
with both hooks. -/
theorem singleton_hook_ordering_case :
    (Resolve exampleHooks "svc").2.trace
      = exampleHooks.trace ++ [Event.initHookRun 10, Event.ctorRun 2] ∧
    (Destroy (Resolve exampleHooks "svc").2 "svc").trace
      = (Resolve exampleHooks "svc").2.trace
        ++ [Event.destroyHookRun 11, Event.dropInstance "svc"] ∧
    mapLookup (Destroy (Resolve exampleHooks "svc").2 "svc").instances "svc" = none :=
  singleton_hook_ordering exampleHooks "svc"
    { constructor := 2, lifetime := .Singleton, initHook := some 10, destroyHook := some 11 }
    10 11 (by decide) rfl rfl rfl rfl

/-- Claim C7: after `Destroy(name)` the descriptor is gone, the cached
instance is gone (whenever a descriptor had been present), and a subsequent
`Resolve(name)` fails with the `not found` error. -/
theorem resolve_after_destroy_not_found (c : Container) (name : String) :
    mapLookup (Destroy c name).services name = none ∧
    (mapLookup c.services name ≠ none →
       mapLookup (Destroy c name).instances name = none) ∧
    (Resolve (Destroy c name) name).1
      = .error ("service " ++ name ++ " not found") := by
  refine ⟨destroy_services_lookup_self c name, fun hne => ?_, ?_⟩
  · cases hs : mapLookup c.services name with
    | none => exact absurd hs hne
    | some serviceDef => exact destroy_instances_lookup_self c name serviceDef hs
  · rw [resolve_unregistered (Destroy c name) name (destroy_services_lookup_self c name)]

/-- Claim C7 witness: destroy of a concrete cached singleton. -/
theorem resolve_after_destroy_not_found_case :
    mapLookup (Destroy exampleCached "svc").services "svc" = none ∧
    mapLookup (Destroy exampleCached "svc").instances "svc" = none ∧
    (Resolve (Destroy exampleCached "svc") "svc").1
      = .error ("service " ++ "svc" ++ " not found") := by
  obtain ⟨h1, h2, h3⟩ := resolve_after_destroy_not_found exampleCached "svc"
  exact ⟨h1, h2 (by decide), h3⟩

/-- Claim C8: `Destroy` on a name with no registered descriptor is a
no-op: no error, no hook event, and the container state is unchanged. -/
theorem destroy_unknown_name_noop (c : Container) (name : String)
    (h : mapLookup c.services name = none) :
    Destroy c name = c :=
  destroy_unregistered_eq c name h

/-- Claim C8 witness: destroy of an unknown name on the empty container. -/
theorem destroy_unknown_name_noop_case :
    Destroy NewContainer "ghost" = NewContainer :=
  destroy_unknown_name_noop NewContainer "ghost" rfl

/-- Claim C9: `MustResolve` returns exactly the instance `Resolve` returns
when `Resolve` succeeds, and when `Resolve` fails it panics with a message
carrying the underlying error's description. -/
theorem must_resolve_behavior (c : Container) (name : String) :
    (∀ v c1, Resolve c name = (.ok v, c1) → MustResolve c name = (.inr v, c1)) ∧
    (∀ e c1, Resolve c name = (.error e, c1) →
       MustResolve c name = (.inl ("failed to resolve service: " ++ e), c1)) := by
  constructor
  · intro v c1 h
    unfold MustResolve
    rw [h]
  · intro e c1 h
    unfold MustResolve
    rw [h]

/-- Claim C9 witness: a concrete panic message for a missing service. -/
theorem must_resolve_behavior_case :
    MustResolve NewContainer "ghost"
      = (.inl ("failed to resolve service: " ++ ("service " ++ "ghost" ++ " not found")),
         NewContainer) :=
  (must_resolve_behavior NewContainer "ghost").2
    ("service " ++ "ghost" ++ " not found") NewContainer rfl

/-- Claim C10: re-registering a name whose singleton instance is cached
changes only the descriptor map, and a subsequent `Resolve` with Singleton
lifetime returns the stale cached instance without invoking the newly
registered constructor (the container, hence the trace, is unchanged). -/
theorem register_preserves_cached_instance
    (c : Container) (name : String) (v : Value) (k : Nat) (opts : List ServiceOption)
    (hv : mapLookup c.instances name = some v) :
    (Register c name k Lifetime.Singleton opts).instances = c.instances ∧
    (Register c name k Lifetime.Singleton opts).trace = c.trace ∧
    Resolve (Register c name k Lifetime.Singleton opts) name
      = (.ok v, Register c name k Lifetime.Singleton opts) := by
  refine ⟨rfl, rfl, ?_⟩
  apply resolve_cached _ name (opts.foldl applyOption
    { constructor := k, lifetime := .Singleton, initHook := none, destroyHook := none }) v
  · exact register_services_lookup_self c name k .Singleton opts
  · rw [foldl_applyOption_lifetime]
  · rw [register_instances]
    exact hv

/-- Claim C10 witness: a concrete overwrite of a cached singleton. -/
theorem register_preserves_cached_instance_case :
    (Register exampleCached "svc" 9 Lifetime.Singleton []).instances
      = exampleCached.instances ∧
    (Register exampleCached "svc" 9 Lifetime.Singleton []).trace = exampleCached.trace ∧
    Resolve (Register exampleCached "svc" 9 Lifetime.Singleton []) "svc"
      = (.ok { ctorId := 3, allocId := 0 },
         Register exampleCached "svc" 9 Lifetime.Singleton []) :=
  register_preserves_cached_instance exampleCached "svc"
    { ctorId := 3, allocId := 0 } 9 [] (by decide)

end DI
